import Mathlib

/-!
Verification model of the bulkmass job queue / worker engine.

The definitions below are a shallow embedding of the JavaScript sources:
  * queue module (in-memory job store with debounced persistence),
  * worker.js (background worker: backoff, threshold abort, crash recovery,
    per-credential Whisk-instance pool),
  * app.js (client-side queue engine),
  * server.js (per-IP rate limiting of the generation endpoint).

Modelling conventions:
  * timestamps (Date.now(), ISO strings) are Nat values threaded explicitly;
  * disk writes are counted in a `writes` field instead of performing I/O;
  * setTimeout debounce timers are a `saveTimer : Option Nat` field holding the
    scheduled delay in milliseconds; a separate `fireTimer` step models the
    timer callback running;
  * the external Whisk generation call is an oracle argument (`SOutcome` /
    `COutcome`) since the adapter is an external collaborator;
  * `Buffer.from(s).toString('base64')` is implemented directly over the
    UTF-8 bytes of the string;
  * random id suffixes (Math.random) are passed in as arguments or derived
    from list positions, since they come from the environment;
  * JS field name `aspectRatio` is shortened to `aspect` in this file.
-/

namespace Bulkmass

/-- Status of a single prompt / client queue item: pending, processing,
completed, or error. -/
inductive PromptStatus
  | pending
  | processing
  | completed
  | error
  deriving DecidableEq

/-- Status of a server-side job (the `Status` enum of the queue module). -/
inductive JobStatus
  | pending
  | processing
  | completed
  | failed
  | cancelled
  deriving DecidableEq

/-! ### Base64 credential hashing

The queue module stores `Buffer.from(cookie).toString('base64').slice(0, 16)`
and the worker keys its instance pool by the 32-character prefix of the same
encoding. -/

/-- Standard base64 alphabet. -/
def base64Chars : List Char :=
  "ABCDEFGHIJKLMNOPQRSTUVWXYZabcdefghijklmnopqrstuvwxyz0123456789+/".toList

/-- Character for a 6-bit group. -/
def b64Char (n : Nat) : Char := base64Chars.getD n '='

/-- Base64-encode a byte list (values 0..255), with `=` padding. -/
def b64Groups : List Nat → List Char
  | [] => []
  | [a] => [b64Char (a / 4), b64Char (a % 4 * 16), '=', '=']
  | [a, b] => [b64Char (a / 4), b64Char (a % 4 * 16 + b / 16), b64Char (b % 16 * 4), '=']
  | a :: b :: c :: rest =>
    b64Char (a / 4) :: b64Char (a % 4 * 16 + b / 16) :: b64Char (b % 16 * 4 + c / 64) ::
      b64Char (c % 64) :: b64Groups rest

/-- UTF-8 encoding of one character, as byte values (what `Buffer.from`
produces per character). -/
def charUtf8 (c : Char) : List Nat :=
  let v := c.toNat
  if v < 128 then [v]
  else if v < 2048 then [192 + v / 64, 128 + v % 64]
  else if v < 65536 then [224 + v / 4096, 128 + v / 64 % 64, 128 + v % 64]
  else [240 + v / 262144, 128 + v / 4096 % 64, 128 + v / 64 % 64, 128 + v % 64]

/-- UTF-8 byte sequence of a string. -/
def utf8Bytes (s : String) : List Nat := (s.data.map charUtf8).flatten

/-- Model of `Buffer.from(s).toString('base64')` over the UTF-8 bytes. -/
def b64OfString (s : String) : String :=
  String.mk (b64Groups (utf8Bytes s))

/-- Worker pool key: `Buffer.from(cookie).toString('base64').slice(0, 32)`
(base64 output is ASCII, so the JS slice is a take on the characters). -/
def instanceKey (cookie : String) : String := String.mk ((b64OfString cookie).data.take 32)

/-- Job record hash field: `Buffer.from(cookie).toString('base64').slice(0, 16)`. -/
def cookieHash16 (cookie : String) : String := String.mk ((b64OfString cookie).data.take 16)

/-! ### Generic helper: mutate the first list element matching a predicate.

JavaScript code of the form `const x = xs.find(p); Object.assign(x, u)` mutates
the first matching element in place; `replaceFirst` is its functional image. -/

/-- Replace the first element satisfying `p` by its image under `f`. -/
def replaceFirst (p : α → Bool) (f : α → α) : List α → List α
  | [] => []
  | x :: rest => if p x then f x :: rest else x :: replaceFirst p f rest

/-! ### Server-side job store (queue module) -/

/-- One prompt inside a server-side job. -/
structure SPrompt where
  id : String
  text : String
  status : PromptStatus
  imageUrl : Option String
  error : Option String
  deriving DecidableEq

/-- One server-side job record. -/
structure SJob where
  id : String
  cookieHash : String
  cookie : String
  aspect : String
  status : JobStatus
  createdAt : Nat
  startedAt : Option Nat
  completedAt : Option Nat
  prompts : List SPrompt
  progress : Nat
  completedCount : Nat
  failedCount : Nat
  totalCount : Nat
  deriving DecidableEq

/-- The queue module's mutable state: the in-memory cache plus persistence
bookkeeping (`isDirty`, the debounce timer, and a count of disk writes). -/
structure Store where
  jobs : List SJob
  isDirty : Bool
  saveTimer : Option Nat
  writes : Nat
  deriving DecidableEq

/-- Debounce window of the job store (`setTimeout(saveToDisk, 2000)`). -/
def SAVE_DEBOUNCE_MS : Nat := 2000

/-- Model of `saveToDisk`: writes only when the cache is dirty. -/
def saveToDisk (st : Store) : Store :=
  if st.isDirty then { st with isDirty := false, writes := st.writes + 1 } else st

/-- Model of `scheduleSave`: mark dirty and (re)arm the 2-second debounce
timer; no immediate write. -/
def scheduleSave (st : Store) : Store :=
  { st with isDirty := true, saveTimer := some SAVE_DEBOUNCE_MS }

/-- Model of `saveNow`: mark dirty, cancel any pending timer, flush at once. -/
def saveNow (st : Store) : Store :=
  saveToDisk { st with isDirty := true, saveTimer := none }

/-- Model of the armed debounce timer firing (its callback is `saveToDisk`). -/
def fireTimer (st : Store) : Store :=
  if st.saveTimer.isSome then saveToDisk { st with saveTimer := none } else st

/-- Model of the 30-second safety-net interval tick. -/
def safetyNetTick (st : Store) : Store :=
  if st.isDirty then saveToDisk st else st

/-- JS `Math.round(((c + f) / total) * 100)`; total = 0 gives NaN in JS and is
never hit on jobs with prompts, modelled as 0 here. -/
def jsRoundPct (done total : Nat) : Nat :=
  if total = 0 then 0 else (done * 200 + total) / (2 * total)

/-- Model of `createJob({cookie, prompts, aspectRatio})`.  `now` stands for
`Date.now()` and `rand` for the random id suffix.  Pushes the new job and
flushes synchronously via `saveNow`. -/
def createJob (st : Store) (cookie : String) (promptTexts : List String)
    (aspectArg : Option String) (now : Nat) (rand : String) : Store × SJob :=
  let job : SJob :=
    { id := "job_" ++ toString now ++ "_" ++ rand
      cookieHash := cookieHash16 cookie
      cookie := cookie
      aspect := aspectArg.getD "1:1"
      status := .pending
      createdAt := now
      startedAt := none
      completedAt := none
      prompts := promptTexts.enum.map (fun it =>
        { id := "p_" ++ toString now ++ "_" ++ toString it.1
          text := it.2
          status := .pending
          imageUrl := none
          error := none })
      progress := 0
      completedCount := 0
      failedCount := 0
      totalCount := promptTexts.length }
  (saveNow { st with jobs := st.jobs ++ [job] }, job)

/-- Model of `getJob`. -/
def getJob (st : Store) (jobId : String) : Option SJob :=
  st.jobs.find? (fun j => j.id == jobId)

/-- Partial update passed to `updateJob` (Object.assign semantics: only the
fields present in the patch are replaced). -/
structure JobPatch where
  status : Option JobStatus := none
  startedAt : Option (Option Nat) := none
  completedAt : Option (Option Nat) := none
  deriving DecidableEq

/-- Apply a `JobPatch` to a job. -/
def applyJobPatch (j : SJob) (u : JobPatch) : SJob :=
  { j with
    status := u.status.getD j.status
    startedAt := u.startedAt.getD j.startedAt
    completedAt := u.completedAt.getD j.completedAt }

/-- Model of `updateJob(jobId, updates)`: merge fields into the job; flush
immediately when the patch carries a status, else schedule a debounced save. -/
def updateJob (st : Store) (jobId : String) (u : JobPatch) : Store × Option SJob :=
  match st.jobs.find? (fun j => j.id == jobId) with
  | none => (st, none)
  | some j =>
    let st1 := { st with
      jobs := replaceFirst (fun j2 => j2.id == jobId) (fun j2 => applyJobPatch j2 u) st.jobs }
    (if u.status.isSome then saveNow st1 else scheduleSave st1, some (applyJobPatch j u))

/-- Partial update passed to `updatePrompt`. -/
structure PromptPatch where
  status : Option PromptStatus := none
  imageUrl : Option (Option String) := none
  error : Option (Option String) := none
  deriving DecidableEq

/-- Apply a `PromptPatch` to a prompt. -/
def applyPromptPatch (p : SPrompt) (u : PromptPatch) : SPrompt :=
  { p with
    status := u.status.getD p.status
    imageUrl := u.imageUrl.getD p.imageUrl
    error := u.error.getD p.error }

/-- The in-place mutation `updatePrompt` performs on the owning job: patch the
named prompt, then recompute the rollup counters and percent progress. -/
def updatePromptInJob (promptId : String) (u : PromptPatch) (jb : SJob) : SJob :=
  let prompts1 := replaceFirst (fun p => p.id == promptId)
    (fun p => applyPromptPatch p u) jb.prompts
  let c := prompts1.countP (fun p => p.status = PromptStatus.completed)
  let f := prompts1.countP (fun p => p.status = PromptStatus.error)
  { jb with
    prompts := prompts1
    completedCount := c
    failedCount := f
    progress := jsRoundPct (c + f) jb.totalCount }

/-- Model of `updatePrompt(jobId, promptId, updates)`: merge fields into the
named prompt, recompute counters, and only schedule a debounced save. -/
def updatePrompt (st : Store) (jobId promptId : String) (u : PromptPatch) :
    Store × Option SJob :=
  match st.jobs.find? (fun j => j.id == jobId) with
  | none => (st, none)
  | some j =>
    match j.prompts.find? (fun p => p.id == promptId) with
    | none => (st, none)
    | some _ =>
      let jobs1 := replaceFirst (fun j2 => j2.id == jobId) (updatePromptInJob promptId u) st.jobs
      (scheduleSave { st with jobs := jobs1 }, some (updatePromptInJob promptId u j))

/-- Model of `getNextPendingPrompt(jobId)`. -/
def getNextPendingPrompt (st : Store) (jobId : String) : Option SPrompt :=
  match getJob st jobId with
  | none => none
  | some j => j.prompts.find? (fun p => p.status = PromptStatus.pending)

/-- Model of `getNextPendingJob()`. -/
def getNextPendingJob (st : Store) : Option SJob :=
  st.jobs.find? (fun j => j.status = JobStatus.pending)

/-! ### Backoff controller (worker.js and app.js) -/

/-- Server base delay between API calls (`BASE_DELAY = 4000`). -/
def BASE_DELAY : Nat := 4000

/-- Server backoff cap (`MAX_BACKOFF = 60000`). -/
def MAX_BACKOFF : Nat := 60000

/-- Client base delay (`BASE_DELAY = 5000` in app.js). -/
def CLIENT_BASE_DELAY : Nat := 5000

/-- Client backoff cap (`MAX_BACKOFF = 32000` in app.js). -/
def CLIENT_MAX_BACKOFF : Nat := 32000

/-- Model of worker.js `getBackoffDelay()` as a function of the
consecutive-error streak. -/
def getBackoffDelayServer (consecutiveErrors : Nat) : Nat :=
  if consecutiveErrors = 0 then BASE_DELAY
  else min (BASE_DELAY * 2 ^ consecutiveErrors) MAX_BACKOFF

/-- Model of app.js `getBackoffDelay()` as a function of the streak. -/
def getBackoffDelayClient (consecutiveErrors : Nat) : Nat :=
  if consecutiveErrors = 0 then CLIENT_BASE_DELAY
  else min (CLIENT_BASE_DELAY * 2 ^ consecutiveErrors) CLIENT_MAX_BACKOFF

/-! ### Server-side worker (worker.js) -/

/-- Outcome of one generation attempt (the adapter is an external
collaborator, so its result is an oracle input to the model). -/
inductive SOutcome
  | ok (imageUrl : String)
  | err (msg : String)
  deriving DecidableEq

/-- Events broadcast by the worker.  `jobDone` covers the `job-completed`
broadcast, with `errMsg = some _` for the threshold abort. -/
inductive Ev
  | jobStarted (jobId : String)
  | promptProcessing (jobId promptId : String)
  | promptCompleted (jobId promptId imageUrl : String)
      (progress completedCount totalCount : Nat)
  | promptError (jobId promptId msg : String)
      (progress completedCount failedCount totalCount : Nat)
  | jobDone (jobId : String) (errMsg : Option String)
      (completedCount failedCount totalCount : Nat)
  deriving DecidableEq

/-- Whether an event is a `prompt-processing` broadcast. -/
def Ev.isProcessing : Ev → Bool
  | .promptProcessing _ _ => true
  | _ => false

/-- Model of `processPrompt` after the prompt was marked processing: apply the
generation outcome to the store, update the consecutive-error streak, and
produce the broadcast.  Success resets the streak; failure increments it.
(The Whisk project bookkeeping lives in the instance pool, modelled apart.) -/
def processPrompt (st : Store) (jobId promptId : String) (streak : Nat)
    (o : SOutcome) : Store × Nat × List Ev :=
  match o with
  | .ok url =>
    let r := updatePrompt st jobId promptId { status := some .completed, imageUrl := some (some url) }
    (r.1, 0,
      [.promptCompleted jobId promptId url
        ((r.2.map (·.progress)).getD 0)
        ((r.2.map (·.completedCount)).getD 0)
        ((r.2.map (·.totalCount)).getD 0)])
  | .err msg =>
    let r := updatePrompt st jobId promptId { status := some .error, error := some (some msg) }
    (r.1, streak + 1,
      [.promptError jobId promptId msg
        ((r.2.map (·.progress)).getD 0)
        ((r.2.map (·.completedCount)).getD 0)
        ((r.2.map (·.failedCount)).getD 0)
        ((r.2.map (·.totalCount)).getD 0)])

/-- Patch applied by the worker when aborting a job on the error threshold. -/
def failPatch (now : Nat) : JobPatch :=
  { status := some .failed, completedAt := some (some now) }

/-- The per-job drain loop of `processJob`, fuelled (each pass consumes one
pending prompt, so `prompts.length + 1` fuel always suffices).  Per pass:
re-read the job and stop on cancellation; abort the whole job once the streak
has reached 5; otherwise mark the next pending prompt processing and run the
generation attempt.  Backoff sleeps and GC hints are time-only effects and are
not part of the state. -/
def drainLoop : Nat → Store → String → Nat → List SOutcome → Nat → Store × Nat × List Ev
  | 0, st, _, streak, _, _ => (st, streak, [])
  | fuel + 1, st, jobId, streak, outcomes, now =>
    match getNextPendingPrompt st jobId with
    | none => (st, streak, [])
    | some prompt =>
      match getJob st jobId with
      | none => (st, streak, [])
      | some current =>
        if current.status = .cancelled then (st, streak, [])
        else if 5 ≤ streak then
          ((updateJob st jobId (failPatch now)).1, streak,
            [.jobDone jobId (some "Too many consecutive errors")
              current.completedCount current.failedCount current.totalCount])
        else
          let st1 := (updatePrompt st jobId prompt.id { status := some .processing }).1
          match outcomes with
          | [] => (st1, streak, [.promptProcessing jobId prompt.id])
          | o :: rest =>
            let r := processPrompt st1 jobId prompt.id streak o
            let r2 := drainLoop fuel r.1 jobId r.2.1 rest now
            (r2.1, r2.2.1, .promptProcessing jobId prompt.id :: r.2.2 ++ r2.2.2)

/-- Model of `processJob(job)`: mark the job processing, broadcast
`job-started`, drain it, then finalize to completed when the drain left the
job in processing state. -/
def processJob (st : Store) (jobId : String) (streak : Nat)
    (outcomes : List SOutcome) (now : Nat) : Store × Nat × List Ev :=
  let st1 := (updateJob st jobId { status := some .processing, startedAt := some (some now) }).1
  let fuel := ((getJob st1 jobId).map (fun j => j.prompts.length)).getD 0 + 1
  let r := drainLoop fuel st1 jobId streak outcomes now
  match getJob r.1 jobId with
  | some final =>
    if final.status = .processing then
      ((updateJob r.1 jobId { status := some .completed, completedAt := some (some now) }).1,
        r.2.1,
        .jobStarted jobId :: r.2.2 ++
          [.jobDone jobId none final.completedCount final.failedCount final.totalCount])
    else (r.1, r.2.1, .jobStarted jobId :: r.2.2)
  | none => (r.1, r.2.1, .jobStarted jobId :: r.2.2)

/-! ### Crash recovery (worker.js `recoverInterruptedJobs`) -/

/-- Reset an interrupted prompt: `processing` becomes `pending`. -/
def recoverPrompt (p : SPrompt) : SPrompt :=
  if p.status = .processing then { p with status := .pending } else p

/-- Reset an interrupted job: a `processing` job goes back to `pending` with
`startedAt` cleared, and each `processing` prompt goes back to `pending`. -/
def recoverJob (j : SJob) : SJob :=
  let j1 := if j.status = .processing then { j with status := .pending, startedAt := none } else j
  { j1 with prompts := j1.prompts.map recoverPrompt }

/-- Number of resets `recoverInterruptedJobs` would perform. -/
def recoveredCount (jobs : List SJob) : Nat :=
  (jobs.map (fun j =>
    (if j.status = JobStatus.processing then 1 else 0) +
      j.prompts.countP (fun p => p.status = PromptStatus.processing))).sum

/-- Model of `recoverInterruptedJobs()`: scan all persisted jobs, reset
interrupted work, and flush immediately when anything was recovered. -/
def recoverInterruptedJobs (st : Store) : Store :=
  if 0 < recoveredCount st.jobs then
    saveNow { st with jobs := st.jobs.map recoverJob }
  else st

/-- Worker lifecycle state (module-level `isRunning` and `consecutiveErrors`
of worker.js; the streak is shared by all jobs). -/
structure WorkerState where
  isRunning : Bool
  consecutiveErrors : Nat
  deriving DecidableEq

/-- Model of worker.js `start()`: a no-op when already running, else reset the
streak, run crash recovery, and begin the loop. -/
def startWorker (w : WorkerState) (st : Store) : WorkerState × Store :=
  if w.isRunning then (w, st)
  else ({ isRunning := true, consecutiveErrors := 0 }, recoverInterruptedJobs st)

/-! ### Per-credential Whisk instance pool (worker.js `getWhiskInstance`) -/

/-- Cached per-credential adapter entry (`whisk` instance, current project,
last-used timestamp, generation count). -/
structure WhiskEntry where
  cookie : String
  project : Option Nat
  lastUsed : Nat
  generationCount : Nat
  deriving DecidableEq

/-- Instance pool: a JS `Map` keyed by the credential hash, in insertion
order. -/
abbrev WhiskCache := List (String × WhiskEntry)

/-- Pool bound (`MAX_INSTANCES = 5`). -/
def MAX_INSTANCES : Nat := 5

/-- Project refresh period (`PROJECT_REFRESH_EVERY = 10`). -/
def PROJECT_REFRESH_EVERY : Nat := 10

/-- Lookup an entry by key. -/
def lookupEntry (cache : WhiskCache) (key : String) : Option WhiskEntry :=
  (cache.find? (fun kv => kv.1 == key)).map (·.2)

/-- The eviction `while` loop: pop entries from the sorted snapshot and delete
them from the map while it stays over the bound. -/
def evictLoop : WhiskCache → WhiskCache → WhiskCache
  | cache, [] => cache
  | cache, victim :: rest =>
    if MAX_INSTANCES < cache.length then
      evictLoop (cache.eraseP (fun kv => kv.1 == victim.1)) rest
    else cache

/-- Fresh pool entry built on a cache miss. -/
def newWhiskEntry (cookie : String) (now : Nat) : WhiskEntry :=
  { cookie := cookie, project := none, lastUsed := now, generationCount := 0 }

/-- Model of `getWhiskInstance(cookie)` state effect: on a hit, refresh
`lastUsed`; on a miss, insert a fresh entry and, when over the bound, evict in
ascending `lastUsed` order. -/
def getWhiskInstance (cache : WhiskCache) (cookie : String) (now : Nat) : WhiskCache :=
  let key := instanceKey cookie
  if (lookupEntry cache key).isSome then
    replaceFirst (fun kv => kv.1 == key) (fun kv => (kv.1, { kv.2 with lastUsed := now })) cache
  else
    let cache1 := cache ++ [(key, newWhiskEntry cookie now)]
    if MAX_INSTANCES < cache1.length then
      evictLoop cache1 (cache1.mergeSort (fun a b => a.2.lastUsed ≤ b.2.lastUsed))
    else cache1

/-! ### Rate limiting of `/api/generate` (server.js) -/

/-- Per-IP rate limit record. -/
structure RLRecord where
  count : Nat
  resetAt : Nat
  deriving DecidableEq

/-- The `rateLimits` map, keyed by `req.ip`. -/
abbrev RLMap := List (String × RLRecord)

/-- Model of the `/api/generate` middleware for one request: restart the
record when the window has expired (`now > record.resetAt`), bump the count,
store it, and pass the request through iff the count stays at or under 20. -/
def rlStep (m : RLMap) (ip : String) (now : Nat) : RLMap × Bool :=
  let r0 : RLRecord :=
    match (m.find? (fun kv => kv.1 == ip)).map (·.2) with
    | some r => if r.resetAt < now then { count := 0, resetAt := now + 60000 } else r
    | none => { count := 0, resetAt := now + 60000 }
  let r1 : RLRecord := { r0 with count := r0.count + 1 }
  let m1 :=
    if (m.find? (fun kv => kv.1 == ip)).isSome then
      replaceFirst (fun kv => kv.1 == ip) (fun kv => (kv.1, r1)) m
    else m ++ [(ip, r1)]
  (m1, decide (r1.count ≤ 20))

/-- Run the middleware over a request trace of `(ip, time)` pairs, collecting
the pass/429 decision of every request (`true` = proxied, `false` = 429). -/
def rlRun (m : RLMap) : List (String × Nat) → RLMap × List Bool
  | [] => (m, [])
  | r :: rest =>
    let s := rlStep m r.1 r.2
    let t := rlRun s.1 rest
    (t.1, s.2 :: t.2)

/-- Spec-side model of the sliding-window rule (refinement comparison only):
the number of earlier request times that fall inside the trailing 60-second
window of a request at time `t`. -/
def slidingPriorCount (prev : List Nat) (t : Nat) : Nat :=
  (prev.filter (fun u => u ≤ t && t < u + 60000)).length

/-- Count of `true` decisions. -/
def countTrue (l : List Bool) : Nat := l.countP (fun b => b)

/-! ### Client-side queue engine (app.js) -/

/-- One client-side queue item. -/
structure CJob where
  id : String
  prompt : String
  status : PromptStatus
  blobUrl : Option String
  error : Option String
  deriving DecidableEq

/-- The client `store` fields that drive the queue engine.  The counters are
modelled as `Int` because the JS counters are plain numbers that the code
decrements without a floor. -/
structure CStore where
  jobs : List CJob
  completedCount : Int
  failedCount : Int
  totalCount : Int
  consecutiveErrors : Nat
  isRunning : Bool
  isPaused : Bool
  cookieValid : Bool
  deriving DecidableEq

/-- A fresh client store. -/
def cInit : CStore :=
  { jobs := [], completedCount := 0, failedCount := 0, totalCount := 0,
    consecutiveErrors := 0, isRunning := false, isPaused := false, cookieValid := true }

/-- Model of `buildJobList()`: expand prompt texts by the repeat count, with
the optional style-prefix string prepended.  `generateId()` draws random ids
from the environment; the model uses position-indexed fresh ids. -/
def buildJobList (texts : List String) (count : Nat) (pre : String) : List CJob :=
  let flat := (texts.map (fun text =>
    List.replicate count (if pre = "" then text else pre ++ " " ++ text))).flatten
  flat.enum.map (fun it =>
    { id := "c_" ++ toString it.1, prompt := it.2, status := .pending,
      blobUrl := none, error := none })

/-- Model of `startGeneration()` (guards: prompts present, cookie valid). -/
def startGeneration (s : CStore) (texts : List String) (count : Nat) (pre : String) : CStore :=
  if texts = [] then s
  else if ¬s.cookieValid then s
  else
    let jobs := buildJobList texts count pre
    { s with jobs := jobs, totalCount := jobs.length, completedCount := 0,
             failedCount := 0, consecutiveErrors := 0, isRunning := true, isPaused := false }

/-- Substring test over char lists (for the `error.includes('401')` check). -/
def seqIn (needle : List Char) : List Char → Bool
  | [] => needle.isEmpty
  | c :: rest => needle.isPrefixOf (c :: rest) || seqIn needle rest

/-- Model of `msg.includes('401')`. -/
def contains401 (msg : String) : Bool := seqIn "401".toList msg.toList

/-- Outcome of one client-side `/api/generate` call: a successful response, a
failure response (with its HTTP-401 flag), or a thrown network error. -/
inductive COutcome
  | ok (image : String)
  | fail (msg : String) (status401 : Bool)
  | netErr (msg : String)
  deriving DecidableEq

/-- One pass of `processQueue()` up to its recursive tail call: stop when not
running or paused; finish when no pending item is left; pause at the
5-consecutive-error threshold before touching any item; otherwise run the next
pending item against the proxy and record the outcome. -/
def processQueueStep (s : CStore) (o : COutcome) : CStore :=
  if ¬s.isRunning ∨ s.isPaused then s
  else
    match s.jobs.find? (fun j => j.status = PromptStatus.pending) with
    | none => { s with isRunning := false }
    | some nextJob =>
      if 5 ≤ s.consecutiveErrors then { s with isPaused := true }
      else
        match o with
        | .ok image =>
          { s with
            jobs := replaceFirst (fun j => j.id == nextJob.id)
              (fun j => { j with status := .completed, blobUrl := some image }) s.jobs
            completedCount := s.completedCount + 1
            consecutiveErrors := 0 }
        | .fail msg s401 =>
          let emsg := if msg = "" then "Unknown error" else msg
          let s1 := { s with
            jobs := replaceFirst (fun j => j.id == nextJob.id)
              (fun j => { j with status := .error, error := some emsg }) s.jobs
            failedCount := s.failedCount + 1
            consecutiveErrors := s.consecutiveErrors + 1 }
          if s401 || contains401 emsg then { s1 with isPaused := true } else s1
        | .netErr msg =>
          { s with
            jobs := replaceFirst (fun j => j.id == nextJob.id)
              (fun j => { j with status := .error, error := some msg }) s.jobs
            failedCount := s.failedCount + 1
            consecutiveErrors := s.consecutiveErrors + 1 }

/-- Model of `pauseGeneration()`: toggle pause; resuming clears the streak. -/
def pauseGeneration (s : CStore) : CStore :=
  if ¬s.isRunning then s
  else if s.isPaused then { s with isPaused := false, consecutiveErrors := 0 }
  else { s with isPaused := true }

/-- Model of `cancelGeneration()`: halt the loop and put pending/processing
items back to pending (resumable, nothing deleted). -/
def cancelGeneration (s : CStore) : CStore :=
  { s with
    isRunning := false
    isPaused := false
    jobs := s.jobs.map (fun j =>
      if j.status = PromptStatus.pending ∨ j.status = PromptStatus.processing then
        { j with status := .pending }
      else j) }

/-- Model of `retryErrors()`: when error items exist, put them back to pending
with cleared error text, zero the failure counters, and restart the loop if it
was idle; with no error items it is an early-returning no-op. -/
def retryErrors (s : CStore) : CStore :=
  let count := s.jobs.countP (fun j => j.status = PromptStatus.error)
  if count = 0 then s
  else
    let s1 := { s with
      jobs := s.jobs.map (fun j =>
        if j.status = PromptStatus.error then { j with status := .pending, error := none } else j)
      failedCount := 0
      consecutiveErrors := 0 }
    if ¬s.isRunning then { s1 with isRunning := true } else s1

/-- Model of `deleteJob(jobId)`: drop the item, removing its rollup
contribution (its cached binary result lives in IndexedDB, outside this
state). -/
def deleteJob (s : CStore) (jobId : String) : CStore :=
  match s.jobs.findIdx? (fun j => j.id == jobId) with
  | none => s
  | some idx =>
    match s.jobs[idx]? with
    | none => s
    | some j =>
      { s with
        jobs := s.jobs.eraseIdx idx
        completedCount := s.completedCount - (if j.status = PromptStatus.completed then 1 else 0)
        failedCount := s.failedCount - (if j.status = PromptStatus.error then 1 else 0)
        totalCount := s.totalCount - 1 }

/-- Model of the state reset at the top of `regenerateSingleJob(jobId)`: the
item goes to processing with its error cleared; `failedCount` is decremented
for an error item (a completed item's `completedCount` is left as is). -/
def regenerateStart (s : CStore) (jobId : String) : CStore :=
  match s.jobs.find? (fun j => j.id == jobId) with
  | none => s
  | some j0 =>
    if ¬s.cookieValid then s
    else
      { s with
        failedCount := s.failedCount - (if j0.status = PromptStatus.error then 1 else 0)
        jobs := replaceFirst (fun j => j.id == jobId)
          (fun j => { j with status := .processing, error := none }) s.jobs }

/-- Model of the rest of `regenerateSingleJob`: apply the proxy outcome to the
item (success bumps `completedCount`, failure bumps `failedCount`). -/
def regenerateFinish (s : CStore) (jobId : String) (o : COutcome) : CStore :=
  match s.jobs.find? (fun j => j.id == jobId) with
  | none => s
  | some _ =>
    match o with
    | .ok image =>
      { s with
        jobs := replaceFirst (fun j => j.id == jobId)
          (fun j => { j with status := .completed, blobUrl := some image }) s.jobs
        completedCount := s.completedCount + 1 }
    | .fail msg _ =>
      let emsg := if msg = "" then "Unknown error" else msg
      { s with
        jobs := replaceFirst (fun j => j.id == jobId)
          (fun j => { j with status := .error, error := some emsg }) s.jobs
        failedCount := s.failedCount + 1 }
    | .netErr msg =>
      { s with
        jobs := replaceFirst (fun j => j.id == jobId)
          (fun j => { j with status := .error, error := some msg }) s.jobs
        failedCount := s.failedCount + 1 }

/-- Queue metadata persisted to localStorage (ids, prompt text, status, error
text — never binary results). -/
structure CMeta where
  id : String
  prompt : String
  status : PromptStatus
  error : Option String
  deriving DecidableEq

/-- The snapshot written by `_doSaveQueueState()`. -/
structure CSaved where
  jobs : List CMeta
  isRunning : Bool
  isPaused : Bool
  completedCount : Int
  failedCount : Int
  totalCount : Int
  deriving DecidableEq

/-- Model of `_doSaveQueueState()`. -/
def doSaveQueueState (s : CStore) : CSaved :=
  { jobs := s.jobs.map (fun j => { id := j.id, prompt := j.prompt, status := j.status, error := j.error })
    isRunning := s.isRunning
    isPaused := s.isPaused
    completedCount := s.completedCount
    failedCount := s.failedCount
    totalCount := s.totalCount }

/-- The per-item restore mapping of `restoreQueueState()`: any item found
`processing` is downgraded to `pending`; blob handles are reattached later
from IndexedDB, so the restored item starts with none. -/
def restoreMeta (m : CMeta) : CJob :=
  { id := m.id, prompt := m.prompt,
    status := if m.status = PromptStatus.processing then .pending else m.status,
    blobUrl := none, error := m.error }

/-- Model of `restoreQueueState()` on a parsed snapshot: a no-op for an empty
snapshot, else rebuild the job list (with the processing-to-pending downgrade)
and the counters. -/
def restoreQueueState (s : CStore) (d : CSaved) : CStore :=
  if d.jobs = [] then s
  else
    { s with
      jobs := d.jobs.map restoreMeta
      completedCount := d.completedCount
      failedCount := d.failedCount
      totalCount := d.totalCount }

/-! ## Helper lemmas -/

theorem length_replaceFirst (p : α → Bool) (f : α → α) (xs : List α) :
    (replaceFirst p f xs).length = xs.length := by
  induction xs with
  | nil => rfl
  | cons x rest ih =>
    by_cases h : p x = true <;> simp [replaceFirst, h, ih]

theorem find?_replaceFirst (p : α → Bool) (f : α → α)
    (hf : ∀ a, p a = true → p (f a) = true) (xs : List α) :
    (replaceFirst p f xs).find? p = (xs.find? p).map f := by
  induction xs with
  | nil => rfl
  | cons x rest ih =>
    cases hpx : p x with
    | true => simp [replaceFirst, hpx, List.find?_cons, hf x hpx]
    | false => simp [replaceFirst, hpx, List.find?_cons, ih]

theorem map_replaceFirst (p : α → Bool) (f : α → α) (g : α → β)
    (hg : ∀ a, g (f a) = g a) (xs : List α) :
    (replaceFirst p f xs).map g = xs.map g := by
  induction xs with
  | nil => rfl
  | cons x rest ih =>
    by_cases h : p x = true <;> simp [replaceFirst, h, ih, hg]

theorem countP_disjoint_le_length (p q : α → Bool) (l : List α)
    (h : ∀ a ∈ l, ¬(p a = true ∧ q a = true)) :
    l.countP p + l.countP q ≤ l.length := by
  induction l with
  | nil => simp
  | cons x rest ih =>
    have hx := h x (by simp)
    have hr := ih (fun a ha => h a (by simp [ha]))
    by_cases hp : p x = true
    · have hq : ¬q x = true := fun hq => hx ⟨hp, hq⟩
      simp [List.countP_cons, hp, hq]; omega
    · by_cases hq : q x = true <;> simp [List.countP_cons, hp, hq] <;> omega

/-! ## Claim theorems -/

/-- Claim C2: in both variants, the backoff delay is `min(base * 2^n, cap)`
for failure streak `n`, the delay at streak 0 is the base (4000 ms server,
60000 ms cap; 5000 ms client, 32000 ms cap), and the delay sequence is
non-decreasing in `n`. -/
theorem backoff_formula_and_monotone :
    (∀ n, getBackoffDelayServer n = min (BASE_DELAY * 2 ^ n) MAX_BACKOFF) ∧
    (∀ n, getBackoffDelayClient n = min (CLIENT_BASE_DELAY * 2 ^ n) CLIENT_MAX_BACKOFF) ∧
    getBackoffDelayServer 0 = BASE_DELAY ∧
    getBackoffDelayClient 0 = CLIENT_BASE_DELAY ∧
    (∀ n, getBackoffDelayServer n ≤ getBackoffDelayServer (n + 1)) ∧
    (∀ n, getBackoffDelayClient n ≤ getBackoffDelayClient (n + 1)) := by
  have hs : ∀ n, getBackoffDelayServer n = min (BASE_DELAY * 2 ^ n) MAX_BACKOFF := by
    intro n
    cases n with
    | zero => simp [getBackoffDelayServer, BASE_DELAY, MAX_BACKOFF]
    | succ k => rfl
  have hc : ∀ n, getBackoffDelayClient n = min (CLIENT_BASE_DELAY * 2 ^ n) CLIENT_MAX_BACKOFF := by
    intro n
    cases n with
    | zero => simp [getBackoffDelayClient, CLIENT_BASE_DELAY, CLIENT_MAX_BACKOFF]
    | succ k => rfl
  refine ⟨hs, hc, rfl, rfl, ?_, ?_⟩
  · intro n
    rw [hs, hs]
    exact min_le_min (Nat.mul_le_mul_left _ (Nat.pow_le_pow_right (by norm_num) (by omega))) le_rfl
  · intro n
    rw [hc, hc]
    exact min_le_min (Nat.mul_le_mul_left _ (Nat.pow_le_pow_right (by norm_num) (by omega))) le_rfl

/-- Request trace refuting the sliding-window reading of the rate limiter:
one request at t=0 opens a window ending at t=60000; 19 more at t=59000 fill
it to 20; the request at t=60001 starts a fresh fixed window, so the request
at t=60002 is passed through even though 20 requests sit in its trailing
60-second sliding window. -/
def c8trace : List (String × Nat) :=
  ("a", 0) :: (List.replicate 19 ("a", 59000)) ++ [("a", 60001), ("a", 60002)]

/-- Claim C8 counterexample: the middleware passes the final request of
`c8trace` although its trailing 60-second window already holds 20 requests
from the same caller — the code is a fixed window, not a sliding one, so a
request breaching the sliding cap is not given HTTP 429. -/
theorem rateLimit_not_sliding :
    (rlRun [] c8trace).2.getLast? = some true ∧
    20 ≤ slidingPriorCount ((c8trace.take 21).map (·.2)) 60002 := by decide

theorem rlRun_window_bound (ip : String) (r : RLRecord) (ts : List Nat)
    (h : ∀ t ∈ ts, t ≤ r.resetAt) :
    countTrue (rlRun [(ip, r)] (ts.map (fun t => (ip, t)))).2 ≤ 20 - min r.count 20 := by
  induction ts generalizing r with
  | nil => simp [rlRun, countTrue]
  | cons t rest ih =>
    have ht : t ≤ r.resetAt := h t (by simp)
    have hstep : rlStep [(ip, r)] ip t =
        ([(ip, { count := r.count + 1, resetAt := r.resetAt })],
          decide (r.count + 1 ≤ 20)) := by
      simp [rlStep, List.find?, replaceFirst, Nat.not_lt.mpr ht]
    simp only [List.map_cons, rlRun, hstep]
    have hr := ih { count := r.count + 1, resetAt := r.resetAt }
      (fun u hu => h u (by simp [hu]))
    simp only [countTrue, List.countP_cons] at hr ⊢
    by_cases hle : r.count + 1 ≤ 20 <;> simp [hle] <;> omega

/-- Claim C8 (amended): the generation endpoint is rate-limited per caller
identity over a fixed 60-second window: the first request after the previous
window expires restarts the counter with a fresh `resetAt`, every request
bumps the counter, a request is proxied iff the bumped counter stays at or
below 20 (else HTTP 429 without proxying), and consequently at most 20
requests are passed within any one window. -/
theorem rateLimit_fixed_window :
    (∀ m ip now,
      (rlStep m ip now).2 =
        decide ((match (m.find? (fun kv => kv.1 == ip)).map (·.2) with
          | some r => if r.resetAt < now then 1 else r.count + 1
          | none => 1) ≤ 20)) ∧
    (∀ ip t0 ts, (∀ t ∈ ts, t ≤ t0 + 60000) →
      countTrue (rlRun [] ((t0 :: ts).map (fun t => (ip, t)))).2 ≤ 20) := by
  constructor
  · intro m ip now
    simp only [rlStep]
    cases hm : (m.find? (fun kv => kv.1 == ip)).map (·.2) with
    | none => simp
    | some r => by_cases hexp : r.resetAt < now <;> simp [hexp]
  · intro ip t0 ts h
    have hstep : rlStep [] ip t0 =
        ([(ip, { count := 1, resetAt := t0 + 60000 })], true) := by
      simp [rlStep, List.find?]
    simp only [List.map_cons, rlRun, hstep]
    have hb := rlRun_window_bound ip { count := 1, resetAt := t0 + 60000 } ts h
    simp [countTrue, List.countP_cons] at hb ⊢
    omega

/-- Closed witness for the amended rate-limit theorem at a concrete trace. -/
theorem rateLimit_fixed_window_witness :
    countTrue (rlRun [] (([1, 2] : List Nat).map (fun t => ("a", t)))).2 ≤ 20 := by
  have h := rateLimit_fixed_window.2 "a" 1 [2] (by decide)
  simpa using h

/-- Client state with a nonzero failure streak, an idle loop, and no error
items (reachable: run a queue, let items fail, delete the failed items, then
stop the loop: the streak survives all of that). -/
def c7NoErrors : CStore :=
  { jobs := [{ id := "c_0", prompt := "a", status := .completed, blobUrl := some "x", error := none }],
    completedCount := 1, failedCount := 0, totalCount := 1,
    consecutiveErrors := 3, isRunning := false, isPaused := false, cookieValid := true }

/-- Claim C7 counterexample: with no error items, `retryErrors` returns before
touching anything, so the consecutive-failure streak stays 3 (not 0) and the
idle drain loop is not restarted — the claim fails on queue states with no
error items. -/
theorem retryErrors_noop_without_errors :
    (retryErrors c7NoErrors).consecutiveErrors = 3 ∧
    (retryErrors c7NoErrors).isRunning = false := by decide

/-- Claim C7 (amended): whenever at least one item has status `error`,
retry-errors sends every error item back to `pending` with its error text
cleared, leaves all other items (in particular completed ones) untouched,
keeps `completedCount` and `totalCount`, resets `failedCount` and the
consecutive-failure streak to 0, and leaves the loop running (restarting it if
it was idle). -/
theorem retryErrors_resets_errors (s : CStore)
    (h : 0 < s.jobs.countP (fun j => j.status = PromptStatus.error)) :
    (∀ (k : Nat) (j : CJob), s.jobs[k]? = some j →
      (retryErrors s).jobs[k]? = some (if j.status = PromptStatus.error
        then { j with status := .pending, error := none } else j)) ∧
    (retryErrors s).completedCount = s.completedCount ∧
    (retryErrors s).failedCount = 0 ∧
    (retryErrors s).consecutiveErrors = 0 ∧
    (retryErrors s).isRunning = true ∧
    (retryErrors s).totalCount = s.totalCount := by
  have hne : ¬(s.jobs.countP (fun j => j.status = PromptStatus.error) = 0) := by omega
  have hjobs : (retryErrors s).jobs = s.jobs.map (fun j =>
      if j.status = PromptStatus.error then { j with status := .pending, error := none } else j) := by
    simp only [retryErrors, hne, if_false]
    by_cases hr : s.isRunning <;> simp [hr]
  refine ⟨?_, ?_, ?_, ?_, ?_, ?_⟩
  · intro k j hk
    rw [hjobs, List.getElem?_map, hk]
    rfl
  all_goals simp only [retryErrors, hne, if_false]
  all_goals by_cases hr : s.isRunning <;> simp [hr]

/-- Closed witness for the amended retry-errors theorem at the spec's
`[completed, error, error, completed]` example queue. -/
def c7Spec : CStore :=
  { jobs := [
      { id := "c_0", prompt := "a", status := .completed, blobUrl := some "b1", error := none },
      { id := "c_1", prompt := "b", status := .error, blobUrl := none, error := some "boom" },
      { id := "c_2", prompt := "c", status := .error, blobUrl := none, error := some "boom" },
      { id := "c_3", prompt := "d", status := .completed, blobUrl := some "b2", error := none }],
    completedCount := 2, failedCount := 2, totalCount := 4,
    consecutiveErrors := 2, isRunning := false, isPaused := false, cookieValid := true }

theorem retryErrors_resets_errors_witness :
    (retryErrors c7Spec).completedCount = 2 ∧
    (retryErrors c7Spec).failedCount = 0 ∧
    (retryErrors c7Spec).consecutiveErrors = 0 ∧
    (retryErrors c7Spec).isRunning = true := by
  have h := retryErrors_resets_errors c7Spec (by decide)
  exact ⟨by rw [h.2.1]; rfl, h.2.2.1, h.2.2.2.1, h.2.2.2.2.1⟩

/-- Claim C6: `createJob` returns a pending job whose prompt entries mirror
the input texts in order, each pending with null result and error, with zero
counters and progress, `totalCount` equal to the number of texts, the job
appended to the store, and the store flushed to disk synchronously (one write,
cache clean) before returning. -/
theorem createJob_initial_state (st : Store) (cookie : String) (texts : List String)
    (ar : Option String) (now : Nat) (rand : String) (_hne : texts ≠ []) :
    (createJob st cookie texts ar now rand).2.status = JobStatus.pending ∧
    (createJob st cookie texts ar now rand).2.prompts.map (·.text) = texts ∧
    (∀ p ∈ (createJob st cookie texts ar now rand).2.prompts,
      p.status = PromptStatus.pending ∧ p.imageUrl = none ∧ p.error = none) ∧
    (createJob st cookie texts ar now rand).2.completedCount = 0 ∧
    (createJob st cookie texts ar now rand).2.failedCount = 0 ∧
    (createJob st cookie texts ar now rand).2.progress = 0 ∧
    (createJob st cookie texts ar now rand).2.totalCount = texts.length ∧
    (createJob st cookie texts ar now rand).1.jobs
      = st.jobs ++ [(createJob st cookie texts ar now rand).2] ∧
    (createJob st cookie texts ar now rand).1.writes = st.writes + 1 ∧
    (createJob st cookie texts ar now rand).1.isDirty = false := by
  refine ⟨rfl, ?_, ?_, rfl, rfl, rfl, rfl, ?_, ?_, ?_⟩
  · simp only [createJob]
    rw [List.map_map]
    exact List.enum_map_snd texts
  · intro p hp
    simp only [createJob, List.mem_map] at hp
    obtain ⟨it, _, rfl⟩ := hp
    exact ⟨rfl, rfl, rfl⟩
  · simp [createJob, saveNow, saveToDisk]
  · simp [createJob, saveNow, saveToDisk]
  · simp [createJob, saveNow, saveToDisk]

/-- Closed witness for the createJob theorem. -/
theorem createJob_initial_state_witness :
    (createJob ⟨[], false, none, 0⟩ "MOCK" ["cat", "dog"] (some "SQUARE") 7 "r").2.totalCount = 2 ∧
    (createJob ⟨[], false, none, 0⟩ "MOCK" ["cat", "dog"] (some "SQUARE") 7 "r").1.writes = 0 + 1 := by
  have h := createJob_initial_state ⟨[], false, none, 0⟩ "MOCK" ["cat", "dog"]
    (some "SQUARE") 7 "r" (by decide)
  exact ⟨by rw [h.2.2.2.2.2.2.1]; rfl, h.2.2.2.2.2.2.2.2.1⟩

/-! ### Shape machinery for the debounce claim (C5)

Validity of an `updatePrompt` call depends only on the job/prompt id shape of
the store, and `updatePrompt` itself never changes that shape, so validity of
a burst of calls against the initial store carries through the burst. -/

/-- The id shape of a job: its id and its prompts' ids. -/
def jobShape (j : SJob) : String × List String := (j.id, j.prompts.map (·.id))

/-- The id shape of the store. -/
def storeShape (st : Store) : List (String × List String) := st.jobs.map jobShape

/-- Whether a shape contains the addressed job and prompt. -/
def shapeValid (sh : List (String × List String)) (jobId promptId : String) : Bool :=
  match sh.find? (fun e => e.1 == jobId) with
  | none => false
  | some e => (e.2.find? (fun s => s == promptId)).isSome

/-- Whether `updatePrompt jobId promptId` addresses an existing prompt. -/
def validB (st : Store) (jobId promptId : String) : Bool :=
  shapeValid (storeShape st) jobId promptId

theorem validB_eq (st : Store) (a b : String) :
    validB st a b = (match st.jobs.find? (fun j => j.id == a) with
      | none => false
      | some j => (j.prompts.find? (fun p => p.id == b)).isSome) := by
  unfold validB shapeValid storeShape
  rw [List.find?_map]
  have hq : ((fun e : String × List String => e.1 == a) ∘ jobShape)
      = (fun j : SJob => j.id == a) := rfl
  rw [hq]
  cases hf : st.jobs.find? (fun j => j.id == a) with
  | none => rfl
  | some j =>
    show ((j.prompts.map (fun p => p.id)).find? (fun s => s == b)).isSome
      = (j.prompts.find? (fun p => p.id == b)).isSome
    rw [List.find?_map]
    have hq2 : ((fun s : String => s == b) ∘ (fun p : SPrompt => p.id))
        = (fun p : SPrompt => p.id == b) := rfl
    rw [hq2]
    cases j.prompts.find? (fun p => p.id == b) <;> rfl

theorem jobShape_updatePromptInJob (pid : String) (u : PromptPatch) (j : SJob) :
    jobShape (updatePromptInJob pid u j) = jobShape j := by
  unfold jobShape updatePromptInJob
  simp only
  exact congrArg (Prod.mk j.id)
    (map_replaceFirst (fun p => p.id == pid) (fun p => applyPromptPatch p u)
      (fun x => x.id) (fun p => rfl) j.prompts)

theorem storeShape_updatePrompt (st : Store) (a b : String) (u : PromptPatch) :
    storeShape (updatePrompt st a b u).1 = storeShape st := by
  cases hj : st.jobs.find? (fun j => j.id == a) with
  | none => simp [updatePrompt, hj]
  | some j =>
    cases hp : j.prompts.find? (fun p => p.id == b) with
    | none => simp [updatePrompt, hj, hp]
    | some p =>
      simp only [updatePrompt, hj, hp]
      unfold storeShape scheduleSave
      simp only
      exact map_replaceFirst _ _ _ (fun j2 => jobShape_updatePromptInJob b u j2) st.jobs

theorem updatePrompt_writes (st : Store) (a b : String) (u : PromptPatch) :
    (updatePrompt st a b u).1.writes = st.writes := by
  cases hj : st.jobs.find? (fun j => j.id == a) with
  | none => simp [updatePrompt, hj]
  | some j =>
    cases hp : j.prompts.find? (fun p => p.id == b) with
    | none => simp [updatePrompt, hj, hp]
    | some p => simp [updatePrompt, hj, hp, scheduleSave]

theorem updatePrompt_schedules (st : Store) (a b : String) (u : PromptPatch)
    (hv : validB st a b = true) :
    (updatePrompt st a b u).1.isDirty = true ∧
    (updatePrompt st a b u).1.saveTimer = some SAVE_DEBOUNCE_MS := by
  rw [validB_eq] at hv
  cases hj : st.jobs.find? (fun j => j.id == a) with
  | none => simp [hj] at hv
  | some j =>
    cases hp : j.prompts.find? (fun p => p.id == b) with
    | none => simp [hj, hp] at hv
    | some p => constructor <;> simp [updatePrompt, hj, hp, scheduleSave]

theorem updatePrompt_burst (calls : List (String × String × PromptPatch)) (st : Store)
    (hv : ∀ c ∈ calls, validB st c.1 c.2.1 = true) :
    (calls.foldl (fun s c => (updatePrompt s c.1 c.2.1 c.2.2).1) st).writes = st.writes ∧
    storeShape (calls.foldl (fun s c => (updatePrompt s c.1 c.2.1 c.2.2).1) st) = storeShape st ∧
    (calls ≠ [] →
      (calls.foldl (fun s c => (updatePrompt s c.1 c.2.1 c.2.2).1) st).isDirty = true ∧
      (calls.foldl (fun s c => (updatePrompt s c.1 c.2.1 c.2.2).1) st).saveTimer
        = some SAVE_DEBOUNCE_MS) := by
  induction calls generalizing st with
  | nil => exact ⟨rfl, rfl, fun h => absurd rfl h⟩
  | cons c rest ih =>
    have hc : validB st c.1 c.2.1 = true := hv c (by simp)
    have hshape : storeShape (updatePrompt st c.1 c.2.1 c.2.2).1 = storeShape st :=
      storeShape_updatePrompt st c.1 c.2.1 c.2.2
    have hrest : ∀ d ∈ rest, validB (updatePrompt st c.1 c.2.1 c.2.2).1 d.1 d.2.1 = true := by
      intro d hd
      have : validB (updatePrompt st c.1 c.2.1 c.2.2).1 d.1 d.2.1 = validB st d.1 d.2.1 := by
        unfold validB
        rw [hshape]
      rw [this]
      exact hv d (by simp [hd])
    have hi := ih (updatePrompt st c.1 c.2.1 c.2.2).1 hrest
    refine ⟨?_, ?_, ?_⟩
    · show (rest.foldl _ (updatePrompt st c.1 c.2.1 c.2.2).1).writes = st.writes
      rw [hi.1, updatePrompt_writes]
    · show storeShape (rest.foldl _ (updatePrompt st c.1 c.2.1 c.2.2).1) = storeShape st
      rw [hi.2.1, hshape]
    · intro _
      cases rest with
      | nil => exact updatePrompt_schedules st c.1 c.2.1 c.2.2 hc
      | cons d ds => exact hi.2.2 (by simp)

/-- Claim C5: every `updatePrompt` call performs no disk write itself and, on
an existing prompt, only arms the 2-second debounce timer; hence a burst of
valid `updatePrompt` calls with no intervening timer expiry causes exactly one
disk write, when the armed timer finally fires.  An `updateJob` whose patch
includes a status flushes synchronously (one immediate write, cache clean). -/
theorem updatePrompt_debounce_updateJob_flush :
    (∀ st a b u, (updatePrompt st a b u).1.writes = st.writes) ∧
    (∀ st a b u, validB st a b = true →
      (updatePrompt st a b u).1.isDirty = true ∧
      (updatePrompt st a b u).1.saveTimer = some SAVE_DEBOUNCE_MS) ∧
    (∀ (st : Store) (calls : List (String × String × PromptPatch)),
      calls ≠ [] → (∀ c ∈ calls, validB st c.1 c.2.1 = true) →
      (calls.foldl (fun s c => (updatePrompt s c.1 c.2.1 c.2.2).1) st).writes = st.writes ∧
      (fireTimer (calls.foldl (fun s c => (updatePrompt s c.1 c.2.1 c.2.2).1) st)).writes
        = st.writes + 1) ∧
    (∀ st a u j, getJob st a = some j → u.status.isSome = true →
      (updateJob st a u).1.writes = st.writes + 1 ∧ (updateJob st a u).1.isDirty = false) := by
  refine ⟨updatePrompt_writes, updatePrompt_schedules, ?_, ?_⟩
  · intro st calls hne hv
    have hb := updatePrompt_burst calls st hv
    refine ⟨hb.1, ?_⟩
    obtain ⟨hd, ht⟩ := hb.2.2 hne
    unfold fireTimer
    rw [ht, hd]
    simp [saveToDisk, hb.1]
  · intro st a u j hj hs
    unfold getJob at hj
    unfold updateJob
    rw [hj, hs]
    simp [saveNow, saveToDisk]

/-- Job with one pending prompt, used by closed witnesses. -/
def w5job : SJob :=
  { id := "j1"
    cookieHash := ""
    cookie := "ck"
    aspect := "1:1"
    status := .processing
    createdAt := 0
    startedAt := some 0
    completedAt := none
    prompts := [{ id := "p1", text := "t", status := .pending, imageUrl := none, error := none }]
    progress := 0
    completedCount := 0
    failedCount := 0
    totalCount := 1 }

/-- Store holding `w5job`, used by closed witnesses. -/
def w5 : Store :=
  { jobs := [w5job], isDirty := false, saveTimer := none, writes := 0 }

/-- Burst of three valid `updatePrompt` calls used by the closed witness. -/
def w5calls : List (String × String × PromptPatch) :=
  [("j1", "p1", { status := some .processing }),
   ("j1", "p1", { status := some .completed }),
   ("j1", "p1", { error := some (some "x") })]

/-- Closed witness for the debounce/flush theorem: a 3-call burst on `w5`
performs no write itself and yields exactly one write when the timer fires,
and a status-bearing `updateJob` flushes immediately. -/
theorem updatePrompt_debounce_updateJob_flush_witness :
    (w5calls.foldl (fun s c => (updatePrompt s c.1 c.2.1 c.2.2).1) w5).writes = w5.writes ∧
    (fireTimer (w5calls.foldl (fun s c => (updatePrompt s c.1 c.2.1 c.2.2).1) w5)).writes
      = w5.writes + 1 ∧
    (updateJob w5 "j1" { status := some .completed }).1.writes = w5.writes + 1 := by
  have h := updatePrompt_debounce_updateJob_flush.2.2.1 w5 w5calls (by decide) (by decide)
  exact ⟨h.1, h.2, (updatePrompt_debounce_updateJob_flush.2.2.2 w5 "j1"
    { status := some .completed } w5job (by decide) (by decide)).1⟩

/-- Client trace exhibiting the counter bug behind claim C1: one prompt,
generation succeeds, the completed item is regenerated successfully, then
deleted. -/
def c1Trace : CStore :=
  deleteJob (regenerateFinish (regenerateStart
    (processQueueStep (startGeneration cInit ["cat"] 1 "") (.ok "img1")) "c_0")
    "c_0" (.ok "img2")) "c_0"

/-- Claim C1 code-bug exhibit: after create, generate (success), regenerate
the completed item (success), delete the item, the client counters read
`completedCount = 1, failedCount = 0, totalCount = 0`, violating
`completedCount + failedCount ≤ totalCount` at a point right after a
client-side item deletion.  `regenerateSingleJob` decrements `failedCount`
when regenerating an error item but never decrements `completedCount` when
regenerating a completed one, then increments it again on success. -/
theorem counters_exceed_total_after_regenerate_delete :
    c1Trace.totalCount < c1Trace.completedCount + c1Trace.failedCount ∧
    c1Trace.completedCount = 1 ∧ c1Trace.failedCount = 0 ∧ c1Trace.totalCount = 0 := by
  decide

theorem recoverJob_prompts (j : SJob) :
    (recoverJob j).prompts = j.prompts.map recoverPrompt := by
  unfold recoverJob
  by_cases hs : j.status = JobStatus.processing <;> simp [hs]

theorem recoveredCount_pos {jobs : List SJob} {j : SJob} (hj : j ∈ jobs) {p : SPrompt}
    (hp : p ∈ j.prompts) (hps : p.status = PromptStatus.processing) :
    0 < recoveredCount jobs := by
  unfold recoveredCount
  have hc : 0 < j.prompts.countP (fun q => q.status = PromptStatus.processing) :=
    List.countP_pos_iff.mpr ⟨p, hp, by simp [hps]⟩
  have hle := List.single_le_sum (l := jobs.map (fun j =>
      (if j.status = JobStatus.processing then 1 else 0) +
        j.prompts.countP (fun p => p.status = PromptStatus.processing)))
    (fun x _ => Nat.zero_le x) _ (List.mem_map_of_mem _ hj)
  omega

/-- Claim C4: restarting the worker over a persisted store holding a job with
one `processing` prompt and the rest `pending`/`completed` resets exactly that
prompt's status to `pending`, alters no other field of any prompt of the job,
and flushes the store immediately; the client-side restore applies the same
processing-to-pending downgrade to every restored item. -/
theorem crash_recovery_frame (st : Store) (j : SJob) (k i : Nat) (p : SPrompt)
    (hjk : st.jobs[k]? = some j)
    (hp : j.prompts[i]? = some p)
    (hps : p.status = PromptStatus.processing)
    (hothers : ∀ e ∈ j.prompts.enum, e.1 ≠ i →
      e.2.status = PromptStatus.pending ∨ e.2.status = PromptStatus.completed) :
    (recoverInterruptedJobs st).jobs[k]? = some (recoverJob j) ∧
    (recoverJob j).prompts[i]? = some { p with status := .pending } ∧
    (∀ e ∈ j.prompts.enum, e.1 ≠ i → (recoverJob j).prompts[e.1]? = some e.2) ∧
    (recoverInterruptedJobs st).writes = st.writes + 1 ∧
    (recoverInterruptedJobs st).isDirty = false ∧
    (∀ (s : CStore) (d : CSaved) (m : Nat) (mt : CMeta), d.jobs ≠ [] →
      d.jobs[m]? = some mt →
      (restoreQueueState s d).jobs[m]? = some
        { id := mt.id, prompt := mt.prompt,
          status := if mt.status = PromptStatus.processing then .pending else mt.status,
          blobUrl := none, error := mt.error }) := by
  have hjmem : j ∈ st.jobs := by
    obtain ⟨hlt, heq⟩ := List.getElem?_eq_some.mp hjk
    exact heq ▸ List.getElem_mem hlt
  have hpmem : p ∈ j.prompts := by
    obtain ⟨hlt, heq⟩ := List.getElem?_eq_some.mp hp
    exact heq ▸ List.getElem_mem hlt
  have hpos := recoveredCount_pos hjmem hpmem hps
  have hrec : recoverInterruptedJobs st = saveNow { st with jobs := st.jobs.map recoverJob } := by
    unfold recoverInterruptedJobs
    simp [hpos]
  have hjobs : (recoverInterruptedJobs st).jobs = st.jobs.map recoverJob := by
    rw [hrec]; simp [saveNow, saveToDisk]
  refine ⟨?_, ?_, ?_, ?_, ?_, ?_⟩
  · rw [hjobs, List.getElem?_map, hjk]; rfl
  · rw [recoverJob_prompts, List.getElem?_map, hp]
    simp [recoverPrompt, hps]
  · intro e he hne
    have hq : j.prompts[e.1]? = some e.2 := List.mem_enum_iff_getElem?.mp he
    rw [recoverJob_prompts, List.getElem?_map, hq]
    rcases hothers e he hne with h | h <;> simp [recoverPrompt, h]
  · rw [hrec]; simp [saveNow, saveToDisk]
  · rw [hrec]; simp [saveNow, saveToDisk]
  · intro s d m mt hne hm
    unfold restoreQueueState
    simp only [hne, if_false]
    rw [List.getElem?_map, hm]
    rfl

/-- Concrete persisted store for the crash-recovery witness: one job whose
second prompt is `processing`, the first `completed` and the third
`pending`. -/
def w4job : SJob :=
  { id := "j4"
    cookieHash := "h"
    cookie := "ck"
    aspect := "1:1"
    status := .processing
    createdAt := 0
    startedAt := some 5
    completedAt := none
    prompts := [
      { id := "q0", text := "a", status := .completed, imageUrl := some "/output/a.png", error := none },
      { id := "q1", text := "b", status := .processing, imageUrl := none, error := none },
      { id := "q2", text := "c", status := .pending, imageUrl := none, error := none }]
    progress := 33
    completedCount := 1
    failedCount := 0
    totalCount := 3 }

/-- Store holding `w4job`. -/
def w4 : Store :=
  { jobs := [w4job], isDirty := false, saveTimer := none, writes := 2 }

/-- Closed witness for the crash-recovery frame theorem on `w4`. -/
theorem crash_recovery_frame_witness :
    (recoverInterruptedJobs w4).jobs[0]? = some (recoverJob w4job) ∧
    (recoverJob w4job).prompts[1]? = some
      { id := "q1", text := "b", status := .pending, imageUrl := none, error := none } ∧
    (recoverInterruptedJobs w4).writes = 2 + 1 := by
  have h := crash_recovery_frame w4 w4job 0 1
    { id := "q1", text := "b", status := .processing, imageUrl := none, error := none }
    (by decide) (by decide) (by decide) (by decide)
  exact ⟨h.1, h.2.1, h.2.2.2.1⟩

/-! ### Drain-loop helpers for the threshold-abort claims -/

theorem getJob_updateJob (st : Store) (jobId : String) (u : JobPatch) (j : SJob)
    (hj : getJob st jobId = some j) :
    getJob (updateJob st jobId u).1 jobId = some (applyJobPatch j u) := by
  unfold getJob at hj ⊢
  have hjobs : (updateJob st jobId u).1.jobs
      = replaceFirst (fun j2 => j2.id == jobId) (fun j2 => applyJobPatch j2 u) st.jobs := by
    simp only [updateJob, hj]
    by_cases hs : u.status.isSome <;> simp [hs, saveNow, saveToDisk, scheduleSave]
  rw [hjobs, find?_replaceFirst (fun j2 => j2.id == jobId)
    (fun j2 => applyJobPatch j2 u) (fun a h => h) st.jobs, hj]
  rfl

theorem drainLoop_abort (fuel : Nat) (st : Store) (jobId : String) (streak : Nat)
    (outcomes : List SOutcome) (now : Nat) (j : SJob)
    (hj : getJob st jobId = some j)
    (hpend : (getNextPendingPrompt st jobId).isSome)
    (hcanc : ¬j.status = JobStatus.cancelled)
    (hstreak : 5 ≤ streak) :
    drainLoop (fuel + 1) st jobId streak outcomes now =
      ((updateJob st jobId (failPatch now)).1, streak,
        [.jobDone jobId (some "Too many consecutive errors")
          j.completedCount j.failedCount j.totalCount]) := by
  obtain ⟨p, hp⟩ := Option.isSome_iff_exists.mp hpend
  simp [drainLoop, hp, hj, hcanc, hstreak]

theorem processJob_abort (st : Store) (jobId : String) (streak : Nat)
    (outcomes : List SOutcome) (now : Nat) (j : SJob)
    (hj : getJob st jobId = some j)
    (hpend : (j.prompts.find? (fun p => p.status = PromptStatus.pending)).isSome)
    (hstreak : 5 ≤ streak) :
    processJob st jobId streak outcomes now =
      ((updateJob (updateJob st jobId
          { status := some .processing, startedAt := some (some now) }).1
          jobId (failPatch now)).1,
        streak,
        [.jobStarted jobId, .jobDone jobId (some "Too many consecutive errors")
          j.completedCount j.failedCount j.totalCount]) := by
  have h1 := getJob_updateJob st jobId
    { status := some .processing, startedAt := some (some now) } j hj
  have hpend1 : (getNextPendingPrompt
      (updateJob st jobId { status := some .processing, startedAt := some (some now) }).1
      jobId).isSome := by
    unfold getNextPendingPrompt
    rw [h1]
    exact hpend
  have habort := drainLoop_abort
    ((applyJobPatch j { status := some .processing, startedAt := some (some now) }).prompts.length)
    _ jobId streak outcomes now _ h1 hpend1 (by exact fun h => nomatch h) hstreak
  have h2 := getJob_updateJob _ jobId (failPatch now) _ h1
  unfold processJob
  dsimp only
  rw [h1]
  simp only [Option.map_some', Option.getD_some]
  rw [habort, h2]
  have hfs : (applyJobPatch (applyJobPatch j
      { status := some .processing, startedAt := some (some now) })
      (failPatch now)).status = JobStatus.failed := rfl
  simp [hfs]
  exact ⟨rfl, rfl, rfl⟩

/-- Claim C3: once the consecutive-failure streak reaches 5 with a pending
prompt remaining and the job not cancelled, the server drain marks the job
failed, emits exactly one terminal `job-completed` event carrying the final
counts (the abort patch leaves the counters untouched), never marks another
prompt processing, and leaves the streak unchanged; the client loop pauses at
the same threshold before touching any item; the streak is cleared again only
by the explicit resume and retry-errors actions. -/
theorem threshold_abort_behaviour :
    (∀ (fuel : Nat) (st : Store) (jobId : String) (streak : Nat)
        (outcomes : List SOutcome) (now : Nat) (j : SJob),
      getJob st jobId = some j → (getNextPendingPrompt st jobId).isSome →
      ¬j.status = JobStatus.cancelled → 5 ≤ streak →
      (drainLoop (fuel + 1) st jobId streak outcomes now).2.2
          = [.jobDone jobId (some "Too many consecutive errors")
              j.completedCount j.failedCount j.totalCount] ∧
      (drainLoop (fuel + 1) st jobId streak outcomes now).2.1 = streak ∧
      getJob (drainLoop (fuel + 1) st jobId streak outcomes now).1 jobId
          = some { j with status := .failed, completedAt := some now } ∧
      (∀ e ∈ (drainLoop (fuel + 1) st jobId streak outcomes now).2.2,
        e.isProcessing = false)) ∧
    (∀ (s : CStore) (o : COutcome),
      s.isRunning = true → s.isPaused = false → 5 ≤ s.consecutiveErrors →
      (s.jobs.find? (fun j => j.status = PromptStatus.pending)).isSome →
      processQueueStep s o = { s with isPaused := true }) ∧
    (∀ s : CStore, s.isRunning = true → s.isPaused = true →
      (pauseGeneration s).consecutiveErrors = 0) ∧
    (∀ s : CStore, 0 < s.jobs.countP (fun j => j.status = PromptStatus.error) →
      (retryErrors s).consecutiveErrors = 0) := by
  refine ⟨?_, ?_, ?_, ?_⟩
  · intro fuel st jobId streak outcomes now j hj hpend hcanc hstreak
    have habort := drainLoop_abort fuel st jobId streak outcomes now j hj hpend hcanc hstreak
    rw [habort]
    refine ⟨rfl, rfl, ?_, ?_⟩
    · exact getJob_updateJob st jobId (failPatch now) j hj
    · intro e he
      simp only [List.mem_singleton] at he
      rw [he]
      rfl
  · intro s o hr hp hstreak hpend
    obtain ⟨nj, hnj⟩ := Option.isSome_iff_exists.mp hpend
    unfold processQueueStep
    simp [hr, hp, hnj, hstreak]
  · intro s hr hp
    unfold pauseGeneration
    simp [hr, hp]
  · intro s h
    have hne : ¬(s.jobs.countP (fun j => j.status = PromptStatus.error) = 0) := by omega
    unfold retryErrors
    simp only [hne, if_false]
    by_cases hr : s.isRunning <;> simp [hr]

/-- Client state at the failure threshold with work left, for the witness. -/
def w3c : CStore :=
  { jobs := [{ id := "c_0", prompt := "a", status := .pending, blobUrl := none, error := none }],
    completedCount := 0, failedCount := 5, totalCount := 6,
    consecutiveErrors := 5, isRunning := true, isPaused := false, cookieValid := true }

/-- Closed witness for the threshold-abort theorem: server drain on `w5` with
streak 5 aborts with the terminal event and no processing event; the client
state `w3c` pauses; resume and retry-errors clear the streak. -/
theorem threshold_abort_behaviour_witness :
    (drainLoop 1 w5 "j1" 5 [] 9).2.2
        = [.jobDone "j1" (some "Too many consecutive errors") 0 0 1] ∧
    getJob (drainLoop 1 w5 "j1" 5 [] 9).1 "j1"
        = some { w5job with status := .failed, completedAt := some 9 } ∧
    processQueueStep w3c (.ok "img") = { w3c with isPaused := true } ∧
    (pauseGeneration { w3c with isPaused := true }).consecutiveErrors = 0 ∧
    (retryErrors c7Spec).consecutiveErrors = 0 := by
  have hs := threshold_abort_behaviour.1 0 w5 "j1" 5 [] 9 w5job
    (by decide) (by decide) (by decide) (by decide)
  refine ⟨hs.1, hs.2.2.1, ?_, ?_, ?_⟩
  · exact threshold_abort_behaviour.2.1 w3c (.ok "img") rfl rfl (by decide) (by decide)
  · exact threshold_abort_behaviour.2.2.1 { w3c with isPaused := true } rfl rfl
  · exact threshold_abort_behaviour.2.2.2 c7Spec (by decide)

/-- Claim C10: the server failure streak is one worker-level counter threaded
across jobs: a generation success resets it to 0, a failure increments it, the
threshold abort leaves it untouched, and `start()` (on a stopped worker)
resets it; consequently `processJob` on any pending job with a pending prompt
while the shared streak is already at or above 5 marks that job failed on the
first drain pass, with no prompt of it ever marked processing. -/
theorem shared_streak_fails_next_jobs :
    (∀ (st : Store) (jobId : String) (streak : Nat) (outcomes : List SOutcome)
        (now : Nat) (j : SJob),
      getJob st jobId = some j →
      (j.prompts.find? (fun p => p.status = PromptStatus.pending)).isSome →
      5 ≤ streak →
      (processJob st jobId streak outcomes now).2.1 = streak ∧
      getJob (processJob st jobId streak outcomes now).1 jobId
        = some { j with status := .failed, startedAt := some now, completedAt := some now } ∧
      (processJob st jobId streak outcomes now).2.2
        = [.jobStarted jobId, .jobDone jobId (some "Too many consecutive errors")
            j.completedCount j.failedCount j.totalCount] ∧
      (∀ e ∈ (processJob st jobId streak outcomes now).2.2, e.isProcessing = false)) ∧
    (∀ (st : Store) (a b : String) (streak : Nat) (url : String),
      (processPrompt st a b streak (SOutcome.ok url)).2.1 = 0) ∧
    (∀ (st : Store) (a b : String) (streak : Nat) (msg : String),
      (processPrompt st a b streak (SOutcome.err msg)).2.1 = streak + 1) ∧
    (∀ (w : WorkerState) (st : Store), w.isRunning = false →
      (startWorker w st).1.consecutiveErrors = 0 ∧ (startWorker w st).1.isRunning = true) := by
  refine ⟨?_, ?_, ?_, ?_⟩
  · intro st jobId streak outcomes now j hj hpend hstreak
    have habort := processJob_abort st jobId streak outcomes now j hj hpend hstreak
    rw [habort]
    have h1 := getJob_updateJob st jobId
      { status := some .processing, startedAt := some (some now) } j hj
    have h2 := getJob_updateJob _ jobId (failPatch now) _ h1
    refine ⟨rfl, h2, rfl, ?_⟩
    · intro e he
      simp only [List.mem_cons, List.mem_singleton] at he
      rcases he with he | he | he
      · rw [he]; rfl
      · rw [he]; rfl
      · exact absurd he (by simp)
  · intro st a b streak url
    rfl
  · intro st a b streak msg
    rfl
  · intro w st h
    constructor <;> simp [startWorker, h]

/-- Closed witness for the shared-streak theorem on `w5` with streak 5. -/
theorem shared_streak_fails_next_jobs_witness :
    (processJob w5 "j1" 5 [] 4).2.1 = 5 ∧
    getJob (processJob w5 "j1" 5 [] 4).1 "j1"
      = some { w5job with status := .failed, startedAt := some 4, completedAt := some 4 } ∧
    (processPrompt w5 "j1" "p1" 3 (.ok "u")).2.1 = 0 ∧
    (processPrompt w5 "j1" "p1" 3 (.err "e")).2.1 = 3 + 1 ∧
    (startWorker ⟨false, 5⟩ w5).1.consecutiveErrors = 0 := by
  have h := shared_streak_fails_next_jobs.1 w5 "j1" 5 [] 4 w5job
    (by decide) (by decide) (by decide)
  exact ⟨h.1, h.2.1, shared_streak_fails_next_jobs.2.1 w5 "j1" "p1" 3 "u",
    shared_streak_fails_next_jobs.2.2.1 w5 "j1" "p1" 3 "e",
    (shared_streak_fails_next_jobs.2.2.2 ⟨false, 5⟩ w5 rfl).1⟩

/-! ### Instance-pool lemmas (C9) -/

theorem whiskLe_trans : ∀ (a b c : String × WhiskEntry),
    decide (a.2.lastUsed ≤ b.2.lastUsed) = true →
    decide (b.2.lastUsed ≤ c.2.lastUsed) = true →
    decide (a.2.lastUsed ≤ c.2.lastUsed) = true := by
  intro a b c h1 h2
  simp only [decide_eq_true_eq] at h1 h2 ⊢
  omega

theorem whiskLe_total : ∀ (a b : String × WhiskEntry),
    (decide (a.2.lastUsed ≤ b.2.lastUsed) || decide (b.2.lastUsed ≤ a.2.lastUsed)) = true := by
  intro a b
  simp only [Bool.or_eq_true, decide_eq_true_eq]
  omega

/-- Core of the eviction path: on a 6-element pool (5 old entries plus the
just-inserted one, last in insertion order, with the newest `lastUsed`), the
sort-then-shift loop removes exactly one old entry with minimal `lastUsed` —
never the freshly inserted entry — and leaves the pool at the bound. -/
theorem evict_append (cache : WhiskCache) (newP : String × WhiskEntry)
    (hnd : (cache ++ [newP]).Nodup)
    (hsize : cache.length = MAX_INSTANCES)
    (htime : ∀ kv ∈ cache, kv.2.lastUsed ≤ newP.2.lastUsed) :
    ∃ v, v ∈ cache ∧
      (∀ kv ∈ cache ++ [newP], v.2.lastUsed ≤ kv.2.lastUsed) ∧
      evictLoop (cache ++ [newP])
          ((cache ++ [newP]).mergeSort (fun a b => a.2.lastUsed ≤ b.2.lastUsed))
        = (cache ++ [newP]).eraseP (fun kv => kv.1 == v.1) ∧
      ((cache ++ [newP]).eraseP (fun kv => kv.1 == v.1)).length = MAX_INSTANCES := by
  have hlen1 : (cache ++ [newP]).length = MAX_INSTANCES + 1 := by simp [hsize]
  have hperm := List.mergeSort_perm (cache ++ [newP])
    (fun a b => a.2.lastUsed ≤ b.2.lastUsed)
  have hpair := List.sorted_mergeSort whiskLe_trans whiskLe_total (cache ++ [newP])
  obtain ⟨v, tail, hvt⟩ : ∃ v tail,
      (cache ++ [newP]).mergeSort (fun a b => a.2.lastUsed ≤ b.2.lastUsed) = v :: tail := by
    cases hs : (cache ++ [newP]).mergeSort (fun a b => a.2.lastUsed ≤ b.2.lastUsed) with
    | nil =>
      have hl := hperm.length_eq
      rw [hs, hlen1] at hl
      simp at hl
    | cons a b => exact ⟨a, b, rfl⟩
  obtain ⟨t0, trest, htt⟩ : ∃ t0 trest, tail = t0 :: trest := by
    have hl := hperm.length_eq
    rw [hvt, hlen1] at hl
    cases ht : tail with
    | nil => rw [ht] at hl; simp [MAX_INSTANCES] at hl
    | cons a b => exact ⟨a, b, rfl⟩
  have hvmem1 : v ∈ cache ++ [newP] :=
    hperm.mem_iff.mp (by rw [hvt]; exact List.mem_cons_self _ _)
  have hvmin : ∀ kv ∈ cache ++ [newP], v.2.lastUsed ≤ kv.2.lastUsed := by
    intro kv hkv
    have hmem := hperm.mem_iff.mpr hkv
    rw [hvt] at hmem
    rcases List.mem_cons.mp hmem with rfl | hmem2
    · exact le_rfl
    · have hp2 := hpair
      rw [hvt] at hp2
      have := (List.pairwise_cons.mp hp2).1 kv hmem2
      simpa using this
  have hvcache : v ∈ cache := by
    rcases List.mem_append.mp hvmem1 with h | h
    · exact h
    · exfalso
      have hveq : v = newP := by simpa using h
      obtain ⟨e, rest, hc⟩ : ∃ e rest, cache = e :: rest := by
        cases hcc : cache with
        | nil => rw [hcc] at hsize; simp [MAX_INSTANCES] at hsize
        | cons a b => exact ⟨a, b, rfl⟩
      have hemem : e ∈ cache := by rw [hc]; exact List.mem_cons_self _ _
      have hle : decide (e.2.lastUsed ≤ newP.2.lastUsed) = true := by
        simp only [decide_eq_true_eq]
        exact htime e hemem
      have hsub : [e, newP].Sublist (cache ++ [newP]) := by
        have h1 : [e].Sublist cache := List.singleton_sublist.mpr hemem
        simpa using List.Sublist.append h1 (List.Sublist.refl [newP])
      have hsub2 := List.mergeSort_stable_pair whiskLe_trans whiskLe_total hle hsub
      rw [hvt, hveq] at hsub2
      have hmemtail : newP ∈ tail := by
        rcases List.sublist_cons_iff.mp hsub2 with h | ⟨r, hr, hrs⟩
        · exact List.Sublist.mem (show newP ∈ [e, newP] by simp) h
        · have hr2 : r = [newP] := by
            have := congrArg List.tail hr
            simpa using this.symm
          rw [hr2] at hrs
          exact List.Sublist.mem (show newP ∈ [newP] by simp) hrs
      have hnds : (v :: tail).Nodup := by
        rw [← hvt]
        exact hperm.nodup_iff.mpr hnd
      rw [hveq] at hnds
      exact (List.nodup_cons.mp hnds).1 hmemtail
  have hbeq : ((fun kv : String × WhiskEntry => kv.1 == v.1) v) = true := by simp
  have herlen : ((cache ++ [newP]).eraseP (fun kv => kv.1 == v.1)).length + 1
      = (cache ++ [newP]).length := List.length_eraseP_add_one hvmem1 hbeq
  have hlen5 : ((cache ++ [newP]).eraseP (fun kv => kv.1 == v.1)).length = MAX_INSTANCES := by
    omega
  refine ⟨v, hvcache, hvmin, ?_, hlen5⟩
  rw [hvt, htt]
  show evictLoop (cache ++ [newP]) (v :: t0 :: trest) = _
  rw [evictLoop, if_pos (by rw [hlen1]; omega)]
  rw [evictLoop, if_neg (by rw [hlen5]; omega)]

/-- Claim C9: the adapter pool is keyed by the base64 hash prefix of the
credential (never the raw credential: every key in the pool is an
`instanceKey` image and the entry for a cookie sits under `instanceKey
cookie`); after any `getWhiskInstance` call on a within-bound pool the pool
again holds at most `MAX_INSTANCES` (5) entries; and whenever the call would
exceed the bound, the evicted entry is one of the previously cached entries
with the oldest `lastUsed` timestamp — never the entry just created. -/
theorem whisk_pool_bounded_lru (cache : WhiskCache) (cookie : String) (now : Nat)
    (hnd : (cache.map (fun kv => kv.1)).Nodup)
    (hsize : cache.length ≤ MAX_INSTANCES)
    (htime : ∀ kv ∈ cache, kv.2.lastUsed ≤ now)
    (himg : ∀ k ∈ cache.map (fun kv => kv.1), ∃ c, k = instanceKey c) :
    (getWhiskInstance cache cookie now).length ≤ MAX_INSTANCES ∧
    (∃ e, (instanceKey cookie, e) ∈ getWhiskInstance cache cookie now) ∧
    (∀ k ∈ (getWhiskInstance cache cookie now).map (fun kv => kv.1), ∃ c, k = instanceKey c) ∧
    (cache.length = MAX_INSTANCES → lookupEntry cache (instanceKey cookie) = none →
      ∃ victim, victim ∈ cache ∧
        (∀ kv ∈ cache ++ [(instanceKey cookie, newWhiskEntry cookie now)],
          victim.2.lastUsed ≤ kv.2.lastUsed) ∧
        ¬victim.1 = instanceKey cookie ∧
        getWhiskInstance cache cookie now
          = (cache ++ [(instanceKey cookie, newWhiskEntry cookie now)]).eraseP
              (fun kv => kv.1 == victim.1)) := by
  cases hlk : lookupEntry cache (instanceKey cookie) with
  | some e0 =>
    have hres : getWhiskInstance cache cookie now
        = replaceFirst (fun kv => kv.1 == instanceKey cookie)
            (fun kv => (kv.1, { kv.2 with lastUsed := now })) cache := by
      unfold getWhiskInstance
      simp [hlk]
    have hkeys : (getWhiskInstance cache cookie now).map (fun kv => kv.1)
        = cache.map (fun kv => kv.1) := by
      rw [hres]
      exact map_replaceFirst (fun kv => kv.1 == instanceKey cookie)
        (fun kv => (kv.1, { kv.2 with lastUsed := now })) (fun kv => kv.1)
        (fun kv => rfl) cache
    obtain ⟨kv0, hf⟩ : ∃ kv0,
        cache.find? (fun kv => kv.1 == instanceKey cookie) = some kv0 := by
      have hlk2 := hlk
      unfold lookupEntry at hlk2
      cases hc : cache.find? (fun kv => kv.1 == instanceKey cookie) with
      | none => rw [hc] at hlk2; simp at hlk2
      | some kv0 => exact ⟨kv0, rfl⟩
    have hkv0key : kv0.1 = instanceKey cookie := by
      have := (List.find?_eq_some.mp hf).1
      exact eq_of_beq this
    refine ⟨?_, ?_, ?_, ?_⟩
    · rw [hres, length_replaceFirst]
      exact hsize
    · have hmem : (kv0.1, { kv0.2 with lastUsed := now }) ∈ getWhiskInstance cache cookie now := by
        rw [hres]
        refine List.mem_of_find?_eq_some (p := fun kv => kv.1 == instanceKey cookie) ?_
        rw [find?_replaceFirst (fun kv => kv.1 == instanceKey cookie)
          (fun kv => (kv.1, { kv.2 with lastUsed := now })) (fun a h => h) cache, hf]
        rfl
      rw [hkv0key] at hmem
      exact ⟨_, hmem⟩
    · intro k hk
      rw [hkeys] at hk
      exact himg k hk
    · intro _ hnone
      exact absurd hnone (by simp)
  | none =>
    have hkeynot : instanceKey cookie ∉ cache.map (fun kv => kv.1) := by
      intro hk
      obtain ⟨kv, hkv, hkeq⟩ := List.mem_map.mp hk
      have hfnone : cache.find? (fun kv => kv.1 == instanceKey cookie) = none := by
        unfold lookupEntry at hlk
        cases hc : cache.find? (fun kv => kv.1 == instanceKey cookie) with
        | none => rfl
        | some kv2 => rw [hc] at hlk; simp at hlk
      have h2 := List.find?_eq_none.mp hfnone kv hkv
      rw [hkeq] at h2
      exact h2 (by simp)
    by_cases hfull : cache.length = MAX_INSTANCES
    · have hnd1 : (cache ++ [(instanceKey cookie, newWhiskEntry cookie now)]).Nodup := by
        have hk1 : (cache ++ [(instanceKey cookie, newWhiskEntry cookie now)]).map
            (fun kv => kv.1) = cache.map (fun kv => kv.1) ++ [instanceKey cookie] := by
          simp
        refine List.Nodup.of_map (fun kv => kv.1) ?_
        rw [hk1, List.nodup_append]
        refine ⟨hnd, List.nodup_singleton _, ?_⟩
        intro a ha hb
        have : a = instanceKey cookie := by simpa using hb
        rw [this] at ha
        exact hkeynot ha
      obtain ⟨v, hvc, hvmin, hevict, hlen5⟩ := evict_append cache
        (instanceKey cookie, newWhiskEntry cookie now) hnd1 hfull
        (fun kv hkv => htime kv hkv)
      have hvkeyne : ¬v.1 = instanceKey cookie := by
        intro h
        exact hkeynot (h ▸ List.mem_map_of_mem _ hvc)
      have hres : getWhiskInstance cache cookie now
          = (cache ++ [(instanceKey cookie, newWhiskEntry cookie now)]).eraseP
              (fun kv => kv.1 == v.1) := by
        unfold getWhiskInstance
        dsimp only
        rw [hlk]
        have hcond : MAX_INSTANCES
            < (cache ++ [(instanceKey cookie, newWhiskEntry cookie now)]).length := by
          simp only [List.length_append, List.length_cons, List.length_nil, hfull]
          omega
        simp only [Option.isSome_none, Bool.false_eq_true, if_false, if_pos hcond]
        exact hevict
      refine ⟨?_, ?_, ?_, ?_⟩
      · rw [hres, hlen5]
      · refine ⟨newWhiskEntry cookie now, ?_⟩
        rw [hres]
        have hnewne : ¬((fun kv : String × WhiskEntry => kv.1 == v.1)
            (instanceKey cookie, newWhiskEntry cookie now)) = true := by
          show ¬(instanceKey cookie == v.1) = true
          simp only [beq_iff_eq]
          exact fun h => hvkeyne h.symm
        have hmemnew : (instanceKey cookie, newWhiskEntry cookie now)
            ∈ cache ++ [(instanceKey cookie, newWhiskEntry cookie now)] :=
          List.mem_append_right _ (List.mem_singleton_self _)
        exact (List.mem_eraseP_of_neg (p := fun kv : String × WhiskEntry => kv.1 == v.1)
          (a := (instanceKey cookie, newWhiskEntry cookie now)) hnewne).mpr hmemnew
      · intro k hk
        rw [hres] at hk
        obtain ⟨kv, hkv, rfl⟩ := List.mem_map.mp hk
        have hkv1 : kv ∈ cache ++ [(instanceKey cookie, newWhiskEntry cookie now)] :=
          List.Sublist.mem hkv (List.eraseP_sublist _)
        rcases List.mem_append.mp hkv1 with h | h
        · exact himg _ (List.mem_map_of_mem _ h)
        · have : kv = (instanceKey cookie, newWhiskEntry cookie now) := by simpa using h
          rw [this]
          exact ⟨cookie, rfl⟩
      · intro _ _
        exact ⟨v, hvc, hvmin, hvkeyne, hres⟩
    · have hlt : cache.length < MAX_INSTANCES := lt_of_le_of_ne hsize hfull
      have hres : getWhiskInstance cache cookie now
          = cache ++ [(instanceKey cookie, newWhiskEntry cookie now)] := by
        unfold getWhiskInstance
        dsimp only
        rw [hlk]
        have hcond : ¬(MAX_INSTANCES
            < (cache ++ [(instanceKey cookie, newWhiskEntry cookie now)]).length) := by
          simp only [List.length_append, List.length_cons, List.length_nil]
          omega
        simp only [Option.isSome_none, Bool.false_eq_true, if_false, if_neg hcond]
      refine ⟨?_, ?_, ?_, ?_⟩
      · rw [hres]
        simp
        omega
      · exact ⟨newWhiskEntry cookie now, by rw [hres]; simp⟩
      · intro k hk
        rw [hres] at hk
        simp only [List.map_append, List.mem_append] at hk
        rcases hk with h | h
        · exact himg k h
        · have : k = instanceKey cookie := by simpa using h
          rw [this]
          exact ⟨cookie, rfl⟩
      · intro h _
        exact absurd h hfull

/-- Five-entry pool for the C9 witness, all entries older than `now = 10`,
with the entry for cookie `"c3"` the least recently used. -/
def w9 : WhiskCache :=
  [(instanceKey "c1", { cookie := "c1", project := none, lastUsed := 5, generationCount := 1 }),
   (instanceKey "c2", { cookie := "c2", project := some 1, lastUsed := 4, generationCount := 2 }),
   (instanceKey "c3", { cookie := "c3", project := none, lastUsed := 1, generationCount := 0 }),
   (instanceKey "c4", { cookie := "c4", project := none, lastUsed := 8, generationCount := 3 }),
   (instanceKey "c5", { cookie := "c5", project := some 2, lastUsed := 6, generationCount := 0 })]

/-- Closed witness for the pool theorem: inserting a sixth credential into the
full pool `w9` keeps the pool at 5 entries, the new key is present, and some
previously cached minimal-`lastUsed` entry (not the new one) was evicted. -/
theorem whisk_pool_bounded_lru_witness :
    (getWhiskInstance w9 "c6" 10).length ≤ MAX_INSTANCES ∧
    (∃ e, (instanceKey "c6", e) ∈ getWhiskInstance w9 "c6" 10) ∧
    (∃ victim, victim ∈ w9 ∧
      (∀ kv ∈ w9 ++ [(instanceKey "c6", newWhiskEntry "c6" 10)],
        victim.2.lastUsed ≤ kv.2.lastUsed) ∧
      ¬victim.1 = instanceKey "c6" ∧
      getWhiskInstance w9 "c6" 10
        = (w9 ++ [(instanceKey "c6", newWhiskEntry "c6" 10)]).eraseP
            (fun kv => kv.1 == victim.1)) := by
  have h := whisk_pool_bounded_lru w9 "c6" 10 (by decide) (by decide) (by decide)
    (by
      intro k hk
      simp only [w9, List.map_cons, List.map_nil, List.mem_cons, List.not_mem_nil,
        or_false] at hk
      rcases hk with rfl | rfl | rfl | rfl | rfl
      · exact ⟨"c1", rfl⟩
      · exact ⟨"c2", rfl⟩
      · exact ⟨"c3", rfl⟩
      · exact ⟨"c4", rfl⟩
      · exact ⟨"c5", rfl⟩)
  exact ⟨h.1, h.2.1, h.2.2.2 (by decide) (by decide)⟩

end Bulkmass
